import Mathlib

/-!
Shallow embedding of the per-frame effect and compositing pipeline of
`random_chroma.py` and `process_videos.py`.

Pixel samples are modelled as integers, float32/float64 arithmetic as exact
rational arithmetic (on the inputs these claims evaluate, the float values
involved are exactly representable, so the idealisation is faithful there).
Randomness is modelled as an explicit stream of draws threaded through the
computation; `np.random.randint` on an empty range raises, which is modelled
with `Except`.
-/

namespace VJ

/-! ### Python / NumPy / OpenCV arithmetic primitives -/

/-- Python `round` and OpenCV `cvRound`: round to the nearest integer,
ties to even. -/
def roundHalfEven (x : ℚ) : ℤ :=
  if x - ⌊x⌋ < 1/2 then ⌊x⌋
  else if (1 : ℚ)/2 < x - ⌊x⌋ then ⌊x⌋ + 1
  else if ⌊x⌋ % 2 = 0 then ⌊x⌋ else ⌊x⌋ + 1

/-- Python floor division `a // b` for positive `b` (Lean integer division is
Euclidean, which agrees with floor division when the divisor is positive). -/
def pydiv (a b : ℤ) : ℤ := a / b

/-- NumPy `np.clip(x, 0.0, 1.0)` on one sample. -/
def clip01 (x : ℚ) : ℚ := min 1 (max 0 x)

/-- NumPy `np.clip(x, 0, 255).astype(np.uint8)` on one sample: clamp, then
truncate; the clamped value is nonnegative, so the truncation is a floor. -/
def clipU8 (x : ℚ) : ℤ := ⌊min 255 (max 0 x)⌋

/-- OpenCV `cv2.addWeighted` on one 8-bit sample:
`saturate_cast<uchar>(a*alpha + b*beta + gamma)`, i.e. round to nearest
(ties to even) and clamp to the 8-bit range. -/
def addWeightedPix (a b : ℤ) (al be ga : ℚ) : ℤ :=
  min 255 (max 0 (roundHalfEven ((a : ℚ) * al + (b : ℚ) * be + ga)))

/-! ### random_chroma.py, lines 130-201: the color transition state -/

/-- A float32 B,G,R triple. -/
abbrev Color := ℚ × ℚ × ℚ

/-- Componentwise `(1-t)*a + t*b` (line 198). -/
def lerpC (t : ℚ) (a b : Color) : Color :=
  ((1 - t) * a.1 + t * b.1, (1 - t) * a.2.1 + t * b.2.1, (1 - t) * a.2.2 + t * b.2.2)

/-- The mutable color state of the loop: `current_color`, `target_color`,
`transition_progress` (initialised at lines 131-133 with
`current = target` and `progress = 1.0`). -/
structure ColorState where
  current : Color
  target : Color
  progress : ℚ
deriving DecidableEq

/-- Lines 190-193: on iterations where
`frame_count % max(1, CHANGE_INTERVAL_FRAMES) == 0` a freshly drawn target is
installed and the transition progress is reset to 0.  `frameCount` is the value
of `frame_count` after the increment at line 163, and `draw` is the value
produced by `rand_bgr()` for this frame. -/
def targetPhase (changeInterval frameCount : ℕ) (draw : Color) (st : ColorState) : ColorState :=
  if frameCount % max 1 changeInterval = 0 then { st with target := draw, progress := 0 } else st

/-- Lines 195-201: advance the transition.  With `0 < transitionFrames` and
progress still below 1, step the progress by `1/transitionFrames` and
re-interpolate `current` between its previous value and `target`; with
`transitionFrames = 0`, snap `current` to `target` (the progress field is
left untouched in that branch). -/
def advancePhase (transitionFrames : ℕ) (st : ColorState) : ColorState :=
  if st.progress < 1 ∧ 0 < transitionFrames then
    { current := lerpC (min 1 (st.progress + 1 / (transitionFrames : ℚ))) st.current st.target,
      target := st.target,
      progress := st.progress + 1 / (transitionFrames : ℚ) }
  else if transitionFrames = 0 then { st with current := st.target } else st

/-- The whole per-output-frame color update for output index `i`: the loop
increments `frame_count` to `i + 1` (line 163) before the update at line 191. -/
def colorUpdate (changeInterval transitionFrames i : ℕ) (draw : Color) (st : ColorState) :
    ColorState :=
  advancePhase transitionFrames (targetPhase changeInterval (i + 1) draw st)

/-- No pending interpolation once the progress has reached 1. -/
def ColorInv (st : ColorState) : Prop := 1 ≤ st.progress → st.current = st.target

/-! ### random_chroma.py, lines 203-215: the chroma mask -/

/-- Line 208: `tol = max(1.0, float(TOLERANCE))`. -/
def maskTol (tolerance : ℚ) : ℚ := max 1 tolerance

/-- Lines 209-210 for one pixel: `np.clip(1.0 - dist/tol, 0.0, 1.0)` where
`dist` is the Euclidean color distance between the pixel and the current
color (line 207). -/
def maskOfDist (tolerance dist : ℚ) : ℚ := clip01 (1 - dist / maskTol tolerance)

/-- The squared Euclidean color distance of line 207 (`np.linalg.norm` along the
channel axis, squared). -/
def distSq (p c : Color) : ℚ :=
  (p.1 - c.1) ^ 2 + (p.2.1 - c.2.1) ^ 2 + (p.2.2 - c.2.2) ^ 2

/-! ### Compositing: random_chroma.py lines 217-227 and process_videos.py line 158 -/

/-- Lines 226-227 for one pixel: `final = f*(1.0-alpha) + bg_f*alpha`, computed
in float, clipped to `[0, 255]` and cast to `uint8`. -/
def maskBlendPix (a b : ℤ) (m : ℚ) : ℤ := clipU8 ((a : ℚ) * (1 - m) + (b : ℚ) * m)

def zipWith3 (f : ℤ → ℤ → ℚ → ℤ) : List ℤ → List ℤ → List ℚ → List ℤ
  | a :: as, b :: bs, m :: ms => f a b m :: zipWith3 f as bs ms
  | _, _, _ => []

/-- The mask blend over flattened frames (per-pixel mask values). -/
def maskBlend (a b : List ℤ) (m : List ℚ) : List ℤ := zipWith3 maskBlendPix a b m

/-- The weighted dual-stream blend `cv2.addWeighted(a, w, b, 1-w, 0)`;
process_videos.py line 158 instantiates `w = 0.4`. -/
def weightedBlend (a b : List ℤ) (w : ℚ) : List ℤ :=
  List.zipWith (fun x y => addWeightedPix x y w (1 - w) 0) a b

/-! ### random_chroma.py, line 126: the background read stride -/

/-- Line 126: `bg_step = max(1, int(round(src_fps / out_fps)))`, computed once
before the frame loop starts. -/
def bgStepOf (srcFps outFps : ℚ) : ℤ := max 1 (roundHalfEven (srcFps / outFps))

/-! ### random_chroma.py, lines 135-229: the per-frame driver loop -/

inductive ChromaStop where
  | capReached
  | bgFailed
deriving DecidableEq

/-- The loop-relevant configuration resolved before the loop: the optional
frame cap (lines 81-86), the background frame count, the read stride, and an
oracle for the success of the background reads (primary read at line 145 and
the retry after `loop_reset` at line 150), indexed by the iteration number. -/
structure ChromaCfg where
  maxFrames : Option ℕ
  totalBg : ℕ
  bgStep : ℕ
  readOk : ℕ → Bool
  retryOk : ℕ → Bool

structure ChromaState where
  frameCount : ℕ
  bgIdx : ℕ
deriving DecidableEq

/-- The guard of line 138: `max_frames is not None and frame_count >= max_frames`. -/
def capHit (maxFrames : Option ℕ) (frameCount : ℕ) : Bool :=
  match maxFrames with
  | some m => decide (m ≤ frameCount)
  | none => false

/-- One iteration of the `while True` loop, reduced to its control flow: break
on the frame cap (lines 138-140); when the background has frames, break when
the read and the post-reset retry both fail (lines 143-153); otherwise
continue with `frame_count` incremented (line 163) and `bg_frame_idx` advanced
by the stride (line 146).  The body (color update, mask, blend, write) never
breaks the loop: `out.write` has no failure path in this script. -/
def chromaStep (cfg : ChromaCfg) (s : ChromaState) : ChromaStop ⊕ ChromaState :=
  if capHit cfg.maxFrames s.frameCount then Sum.inl ChromaStop.capReached
  else if 0 < cfg.totalBg ∧ cfg.readOk s.frameCount = false ∧ cfg.retryOk s.frameCount = false then
    Sum.inl ChromaStop.bgFailed
  else Sum.inr ⟨s.frameCount + 1, s.bgIdx + cfg.bgStep⟩

/-- Run the loop with the given fuel; `none` means the loop is still running
after that many iterations. -/
def runChroma (cfg : ChromaCfg) : ℕ → ChromaState → Option ChromaStop
  | 0, _ => none
  | fuel + 1, s =>
    match chromaStep cfg s with
    | Sum.inl r => some r
    | Sum.inr s2 => runChroma cfg fuel s2

/-- A configuration with no frame/duration cap (the script's defaults give
`max_frames = None`) and a looping background whose reads always succeed. -/
def chromaNoCap : ChromaCfg := ⟨none, 1, 1, fun _ => true, fun _ => true⟩

/-- The loop never stops, whatever fuel it is given. -/
def chromaDiverges (cfg : ChromaCfg) (s : ChromaState) : Prop :=
  ∀ fuel, runChroma cfg fuel s = none

/-! ### process_videos.py, lines 142-166: the main frame loop -/

inductive MainStop where
  | sourceExhausted
  | pipeFailed
deriving DecidableEq

/-- The main loop's collaborators: the two sequential sources (`None` once
exhausted) and the success of the pipe write to the encoder, indexed by the
iteration number. -/
structure MainCfg (F : Type) where
  readBase : ℕ → Option F
  readOverlay : ℕ → Option F
  writeOk : ℕ → Bool

/-- The `while True` loop of lines 142-166, reduced to its control flow: break
when either source is exhausted (line 145) or when the pipe write raises
`BrokenPipeError`/`IOError` (lines 162-166). -/
def runMain {F : Type} (cfg : MainCfg F) : ℕ → ℕ → Option MainStop
  | 0, _ => none
  | fuel + 1, k =>
    if (cfg.readBase k).isNone || (cfg.readOverlay k).isNone then some MainStop.sourceExhausted
    else if cfg.writeOk k = false then some MainStop.pipeFailed
    else runMain cfg fuel (k + 1)

/-! ### process_videos.py, lines 26-96: apply_ultra_glitch -/

/-- A decoded frame: the pixel sample at (row, column, channel); channels follow
the OpenCV B,G,R convention. -/
abbrev Frame := ℕ → ℕ → Fin 3 → ℤ

inductive GlitchErr where
  /-- Raised when `np.random.randint(low, high)` is called with `low >= high`. -/
  | emptyRange
deriving DecidableEq

/-- The process-wide random generator, as the streams of draws it will produce:
`u` yields the scalar draws (each in `[0,1)`) that drive
`np.random.rand`, `np.random.randint` and `np.random.uniform`; `arr` yields
whole random arrays (`np.random.randint(0, 255, (h, w, 3))` at line 53). -/
structure Rng where
  u : ℕ → ℚ
  arr : ℕ → Frame

def rngTailU (g : Rng) : Rng := ⟨fun n => g.u (n + 1), g.arr⟩

def rngTailArr (g : Rng) : Rng := ⟨g.u, fun n => g.arr (n + 1)⟩

def Rng.nonneg (g : Rng) : Prop := ∀ n, 0 ≤ g.u n

def Rng.valid (g : Rng) : Prop := ∀ n, 0 ≤ g.u n ∧ g.u n < 1

/-- Model of `np.random.randint(low, high)`: raises `ValueError` on an empty
range, otherwise returns a value of `[low, high)` driven by the next unit draw. -/
def npRandint (g : Rng) (low high : ℤ) : Except GlitchErr (ℤ × Rng) :=
  if low < high then Except.ok (low + ⌊g.u 0 * ((high : ℚ) - (low : ℚ))⌋, rngTailU g)
  else Except.error GlitchErr.emptyRange

/-- Model of `np.random.uniform(a, b)` (never raises). -/
def npUniform (g : Rng) (a b : ℚ) : ℚ × Rng := (a + g.u 0 * (b - a), rngTailU g)

/-- The ad hoc per-stream persistence dict: `prev_frame` and `feedback_frame`,
both initially absent. -/
structure Persist where
  prev_frame : Option Frame
  feedback_frame : Option Frame

/-- The per-transform gate probabilities.  In the script they are the literals
at lines 36, 51, 57, 65, 73 and 83; the chain is embedded generically in them
and `ultraProbs` instantiates the script's values. -/
structure GlitchProbs where
  pChannel : ℚ
  pNoise : ℚ
  pScramble : ℚ
  pDatamosh : ℚ
  pBlock : ℚ
  pFeedback : ℚ

/-- The hard-coded gate probabilities of `apply_ultra_glitch`:
0.8, 0.9, 0.7, 0.5, 0.6, 0.9. -/
def ultraProbs : GlitchProbs := ⟨4/5, 9/10, 7/10, 1/2, 3/5, 9/10⟩

/-- All gates closed. -/
def zeroProbs : GlitchProbs := ⟨0, 0, 0, 0, 0, 0⟩

/-- Index arithmetic of `np.roll`: `out[i] = in[(i - s) mod n]`. -/
def idxShift (n : ℕ) (i : ℕ) (s : ℤ) : ℕ := (((i : ℤ) - s) % (n : ℤ)).toNat

/-- Lines 37-48: roll the r and b planes horizontally and the g plane
vertically, then `cv2.merge([b, g, r])`. -/
def channelShift (h w : ℕ) (f : Frame) (sr sg sb : ℤ) : Frame := fun i j c =>
  if c = 0 then f i (idxShift w j sb) 0
  else if c = 1 then f (idxShift h i sg) j 1
  else f i (idxShift w j sr) 2

/-- Line 61: roll one row horizontally (the row is a `(w, 3)` array, so
`axis=0` of the row is the width axis). -/
def rollRow (w : ℕ) (f : Frame) (r : ℕ) (s : ℤ) : Frame := fun i j c =>
  if i = r then f r (idxShift w j s) c else f i j c

/-- Per-pixel `cv2.addWeighted(a, al, b, be, 0)` (lines 54 and 92 and the
dual-stream blend at line 158). -/
def addWeightedFrame (a : Frame) (al : ℚ) (b : Frame) (be : ℚ) : Frame :=
  fun i j c => addWeightedPix (a i j c) (b i j c) al be 0

/-- Line 69: copy the rectangle `[y, y+rh) x [x, x+rw)` from `src` (NumPy slice
assignment silently clamps both sides at the frame border, so the total-function
model needs no explicit clamp). -/
def regionCopy (cur src : Frame) (x y rw rh : ℤ) : Frame := fun i j c =>
  if y ≤ (i : ℤ) ∧ (i : ℤ) < y + rh ∧ x ≤ (j : ℤ) ∧ (j : ℤ) < x + rw then src i j c
  else cur i j c

/-- Line 79: overwrite a block with a solid color (the tuple broadcasts over
the channel axis). -/
def blockFill (cur : Frame) (xb yb bw bh c0 c1 c2 : ℤ) : Frame := fun i j c =>
  if yb ≤ (i : ℤ) ∧ (i : ℤ) < yb + bh ∧ xb ≤ (j : ℤ) ∧ (j : ℤ) < xb + bw then
    if c = 0 then c0 else if c = 1 then c1 else c2
  else cur i j c

/-- Lines 36-48: channel displacement.  Draw order: gate, `shift_r`,
`shift_g`, `shift_b`. -/
def stepChannel (P : GlitchProbs) (h w : ℕ) (cur : Frame) (g : Rng) :
    Except GlitchErr (Frame × Rng) :=
  let u := g.u 0
  let g1 := rngTailU g
  if u < P.pChannel then
    match npRandint g1 (-50) 50 with
    | Except.error e => Except.error e
    | Except.ok (sr, g2) =>
      match npRandint g2 (-50) 50 with
      | Except.error e => Except.error e
      | Except.ok (sg, g3) =>
        match npRandint g3 (-50) 50 with
        | Except.error e => Except.error e
        | Except.ok (sb, g4) => Except.ok (channelShift h w cur sr sg sb, g4)
  else Except.ok (cur, g1)

/-- The loop of lines 58-61: scramble `n` rows, two draws per iteration
(`row_idx` from `[0, h)`, `shift_amount` from `[-w // 2, w // 2)`). -/
def scrambleRows (h w : ℕ) : ℕ → Frame → Rng → Except GlitchErr (Frame × Rng)
  | 0, cur, g => Except.ok (cur, g)
  | n + 1, cur, g =>
    match npRandint g 0 (h : ℤ) with
    | Except.error e => Except.error e
    | Except.ok (row, g1) =>
      match npRandint g1 (pydiv (-(w : ℤ)) 2) (pydiv (w : ℤ) 2) with
      | Except.error e => Except.error e
      | Except.ok (s, g2) => scrambleRows h w n (rollRow w cur row.toNat s) g2

/-- Lines 51-61: blend with a dense random array, then with probability 0.7
scramble `np.random.randint(1, h // 5)` rows. -/
def stepNoise (P : GlitchProbs) (h w : ℕ) (cur : Frame) (g : Rng) :
    Except GlitchErr (Frame × Rng) :=
  let u := g.u 0
  let g1 := rngTailU g
  if u < P.pNoise then
    let noise := g1.arr 0
    let g2 := rngTailArr g1
    let cur1 := addWeightedFrame cur (7/10) noise (3/10)
    let u2 := g2.u 0
    let g3 := rngTailU g2
    if u2 < P.pScramble then
      match npRandint g3 1 (pydiv (h : ℤ) 5) with
      | Except.error e => Except.error e
      | Except.ok (n, g4) => scrambleRows h w n.toNat cur1 g4
    else Except.ok (cur1, g3)
  else Except.ok (cur, g1)

/-- Lines 64-69: datamosh.  The gate `prev_frame is not None and rand() < 0.5`
short-circuits, so no draw is consumed when no previous frame exists. -/
def stepDatamosh (P : GlitchProbs) (h w : ℕ) (prev : Option Frame) (cur : Frame) (g : Rng) :
    Except GlitchErr (Frame × Rng) :=
  match prev with
  | none => Except.ok (cur, g)
  | some pf =>
    let u := g.u 0
    let g1 := rngTailU g
    if u < P.pDatamosh then
      match npRandint g1 0 (pydiv (w : ℤ) 4) with
      | Except.error e => Except.error e
      | Except.ok (x, g2) =>
        match npRandint g2 0 (pydiv (h : ℤ) 4) with
        | Except.error e => Except.error e
        | Except.ok (y, g3) =>
          match npRandint g3 (pydiv (w : ℤ) 2) (w : ℤ) with
          | Except.error e => Except.error e
          | Except.ok (rw, g4) =>
            match npRandint g4 (pydiv (h : ℤ) 2) (h : ℤ) with
            | Except.error e => Except.error e
            | Except.ok (rh, g5) => Except.ok (regionCopy cur pf x y rw rh, g5)
    else Except.ok (cur, g1)

/-- Lines 73-79: random solid-color block.  Draw order: gate, `block_w`,
`block_h`, `block_x`, `block_y`, then the three color components. -/
def stepBlock (P : GlitchProbs) (h w : ℕ) (cur : Frame) (g : Rng) :
    Except GlitchErr (Frame × Rng) :=
  let u := g.u 0
  let g1 := rngTailU g
  if u < P.pBlock then
    match npRandint g1 (pydiv (w : ℤ) 10) (pydiv (w : ℤ) 2) with
    | Except.error e => Except.error e
    | Except.ok (bw, g2) =>
      match npRandint g2 (pydiv (h : ℤ) 10) (pydiv (h : ℤ) 2) with
      | Except.error e => Except.error e
      | Except.ok (bh, g3) =>
        match npRandint g3 0 ((w : ℤ) - bw) with
        | Except.error e => Except.error e
        | Except.ok (xb, g4) =>
          match npRandint g4 0 ((h : ℤ) - bh) with
          | Except.error e => Except.error e
          | Except.ok (yb, g5) =>
            match npRandint g5 0 256 with
            | Except.error e => Except.error e
            | Except.ok (c0, g6) =>
              match npRandint g6 0 256 with
              | Except.error e => Except.error e
              | Except.ok (c1, g7) =>
                match npRandint g7 0 256 with
                | Except.error e => Except.error e
                | Except.ok (c2, g8) => Except.ok (blockFill cur xb yb bw bh c0 c1 c2, g8)
  else Except.ok (cur, g1)

/-- Lines 82-92: feedback loop.  `warp` stands for the
`cv2.getRotationMatrix2D` / `cv2.warpAffine` collaborator applied to the
feedback frame with the drawn angle and scale; the gate short-circuits, so no
draw is consumed when no feedback frame exists. -/
def stepFeedback (P : GlitchProbs) (warp : Frame → ℚ → ℚ → Frame) (_h _w : ℕ)
    (fb : Option Frame) (cur : Frame) (g : Rng) : Except GlitchErr (Frame × Rng) :=
  match fb with
  | none => Except.ok (cur, g)
  | some f =>
    let u := g.u 0
    let g1 := rngTailU g
    if u < P.pFeedback then
      let p1 := npUniform g1 (9/10) (99/100)
      let p2 := npUniform p1.2 (-5) 5
      Except.ok (addWeightedFrame cur (6/10) (warp f p2.1 p1.1) (4/10), p2.2)
    else Except.ok (cur, g1)

/-- Model of `apply_ultra_glitch(frame, persistence)` (lines 26-96): the five gated
transforms in order, with `persistence['prev_frame']` unconditionally
overwritten with a copy of the input frame (line 70) and
`persistence['feedback_frame']` unconditionally overwritten with a copy of the
returned frame (line 94).  `h`/`w` are `frame.shape[:2]` (line 30). -/
def applyUltraGlitch (P : GlitchProbs) (warp : Frame → ℚ → ℚ → Frame) (h w : ℕ)
    (frame : Frame) (ps : Persist) (g : Rng) : Except GlitchErr (Frame × Persist × Rng) :=
  match stepChannel P h w frame g with
  | Except.error e => Except.error e
  | Except.ok (c1, g1) =>
    match stepNoise P h w c1 g1 with
    | Except.error e => Except.error e
    | Except.ok (c2, g2) =>
      match stepDatamosh P h w ps.prev_frame c2 g2 with
      | Except.error e => Except.error e
      | Except.ok (c3, g3) =>
        match stepBlock P h w c3 g3 with
        | Except.error e => Except.error e
        | Except.ok (c4, g4) =>
          match stepFeedback P warp h w ps.feedback_frame c4 g4 with
          | Except.error e => Except.error e
          | Except.ok (c5, g5) => Except.ok (c5, ⟨some frame, some c5⟩, g5)

/-- The line-65 gate condition for the datamosh transform. -/
def datamoshGate (prev : Option Frame) (p u : ℚ) : Prop := prev.isSome = true ∧ u < p

/-- The line-83 gate condition for the feedback transform. -/
def feedbackGate (fb : Option Frame) (p u : ℚ) : Prop := fb.isSome = true ∧ u < p

/-- Whether the chain completed without raising. -/
def glitchOk (r : Except GlitchErr (Frame × Persist × Rng)) : Bool :=
  match r with
  | Except.ok _ => true
  | Except.error _ => false

/-! ### Concrete instances used by the witnesses -/

def frame0 : Frame := fun _ _ _ => 0

def warp0 : Frame → ℚ → ℚ → Frame := fun f _ _ => f

/-- A draw stream that always yields 0 (every gate fires). -/
def rngZero : Rng := ⟨fun _ => 0, fun _ => frame0⟩

/-- A draw stream that always yields 1 (no gate fires). -/
def rngOne : Rng := ⟨fun _ => 1, fun _ => frame0⟩

def chromaCap2 : ChromaCfg := ⟨some 2, 1, 1, fun _ => true, fun _ => true⟩

def mainTwo : MainCfg Unit :=
  ⟨fun k => if k < 2 then some () else none, fun _ => some (), fun _ => true⟩

end VJ

namespace VJ

theorem lerpC_one (a b : Color) : lerpC 1 a b = b := by
  unfold lerpC
  norm_num

theorem targetPhase_boundary (c fc : ℕ) (draw : Color) (st : ColorState)
    (hb : fc % max 1 c = 0) :
    targetPhase c fc draw st = { st with target := draw, progress := 0 } := by
  unfold targetPhase
  rw [if_pos hb]

theorem targetPhase_skip (c fc : ℕ) (draw : Color) (st : ColorState)
    (hb : fc % max 1 c ≠ 0) :
    targetPhase c fc draw st = st := by
  unfold targetPhase
  rw [if_neg hb]

theorem advancePhase_mono (tf : ℕ) (st : ColorState) :
    st.progress ≤ (advancePhase tf st).progress := by
  unfold advancePhase
  split
  case isTrue hcond =>
    have htf : (0 : ℚ) < (tf : ℚ) := by exact_mod_cast hcond.2
    simp only []
    have : (0 : ℚ) ≤ 1 / (tf : ℚ) := le_of_lt (by positivity)
    linarith
  case isFalse =>
    split <;> simp

theorem targetPhase_inv (c fc : ℕ) (draw : Color) (st : ColorState) (h : ColorInv st) :
    ColorInv (targetPhase c fc draw st) := by
  unfold ColorInv at h ⊢
  unfold targetPhase
  split
  · intro h1
    norm_num at h1
  · exact h

theorem advancePhase_inv (tf : ℕ) (st : ColorState) (h : ColorInv st) :
    ColorInv (advancePhase tf st) := by
  unfold ColorInv at h ⊢
  unfold advancePhase
  split
  case isTrue hcond =>
    intro hge
    simp only [] at hge ⊢
    rw [min_eq_left hge, lerpC_one]
  case isFalse hcond =>
    split
    · intro _
      rfl
    · exact h

end VJ

namespace VJ

theorem advanceIter (tf : ℕ) (htf : 0 < tf) (A B : Color) :
    ∀ j, j ≤ tf →
      ((advancePhase tf)^[j] ⟨A, B, 0⟩).progress = (j : ℚ) / (tf : ℚ) ∧
      ((advancePhase tf)^[j] ⟨A, B, 0⟩).target = B := by
  intro j
  induction j with
  | zero => simp
  | succ n ih =>
    intro hle
    have hn := ih (Nat.le_of_succ_le hle)
    rw [Function.iterate_succ_apply']
    set s := (advancePhase tf)^[n] (⟨A, B, 0⟩ : ColorState) with hs
    have htfq : (0 : ℚ) < (tf : ℚ) := by exact_mod_cast htf
    have hlt : s.progress < 1 := by
      rw [hn.1]
      rw [div_lt_one htfq]
      exact_mod_cast hle
    unfold advancePhase
    rw [if_pos ⟨hlt, htf⟩]
    refine ⟨?_, hn.2⟩
    simp only []
    rw [hn.1]
    push_cast
    field_simp

theorem transitionCompletes (tf : ℕ) (htf : 0 < tf) (A B : Color) :
    ((advancePhase tf)^[tf] ⟨A, B, 0⟩).current = B := by
  obtain ⟨k, rfl⟩ : ∃ k, tf = k + 1 := ⟨tf - 1, by omega⟩
  rw [Function.iterate_succ_apply']
  set s := (advancePhase (k + 1))^[k] (⟨A, B, 0⟩ : ColorState) with hs
  have h := advanceIter (k + 1) htf A B k (by omega)
  have hq : (0 : ℚ) < ((k : ℚ) + 1) := by positivity
  have hcast : ((k + 1 : ℕ) : ℚ) = (k : ℚ) + 1 := by push_cast; ring
  have hlt : s.progress < 1 := by
    rw [h.1, hcast, div_lt_one hq]
    linarith
  unfold advancePhase
  rw [if_pos ⟨hlt, htf⟩]
  simp only []
  have hsum : s.progress + 1 / ((k + 1 : ℕ) : ℚ) = 1 := by
    rw [h.1, hcast, div_add_div_same, div_self (by linarith)]
  rw [hsum, min_self, lerpC_one, h.2]

/-- C2 counterexample: with `change_interval = 2` the first processed frame
(output index 0) draws no new target and leaves the progress untouched,
because the code tests `frame_count % interval == 0` after incrementing
`frame_count` to 1. -/
theorem c2_counterexample :
    (colorUpdate 2 0 0 (5, 5, 5) ⟨(0, 0, 0), (0, 0, 0), 1⟩).target ≠ (5, 5, 5) ∧
    (colorUpdate 2 0 0 (5, 5, 5) ⟨(0, 0, 0), (0, 0, 0), 1⟩).progress ≠ 0 := by
  decide

/-- C2 (amended): for `change_interval = c >= 1`, a new target is installed and
the progress is reset to 0 exactly on the output frames whose index `i`
satisfies `(i + 1) % c = 0`, i.e. on the c-th, 2c-th, ... processed frames
(with `c = 1` this is every frame, including the first); on all other frames
target and progress are untouched. -/
theorem c2_amended (c i : ℕ) (draw : Color) (st : ColorState) (hc : 1 ≤ c) :
    ((i + 1) % c = 0 →
      targetPhase c (i + 1) draw st = { st with target := draw, progress := 0 }) ∧
    ((i + 1) % c ≠ 0 → targetPhase c (i + 1) draw st = st) := by
  have hmax : max 1 c = c := Nat.max_eq_right hc
  constructor
  · intro hb
    exact targetPhase_boundary c (i + 1) draw st (by rw [hmax]; exact hb)
  · intro hb
    exact targetPhase_skip c (i + 1) draw st (by rw [hmax]; exact hb)

/-- Witness for C2 (amended) at `c = 2`, `i = 1` (a boundary) and `i = 0`
(not a boundary). -/
theorem c2_witness :
    ((1 + 1) % 2 = 0 ∧
      targetPhase 2 (1 + 1) (5, 5, 5) ⟨(0, 0, 0), (0, 0, 0), 1⟩
        = ⟨(0, 0, 0), (5, 5, 5), 0⟩) ∧
    ((0 + 1) % 2 ≠ 0 ∧
      targetPhase 2 (0 + 1) (5, 5, 5) ⟨(0, 0, 0), (0, 0, 0), 1⟩
        = ⟨(0, 0, 0), (0, 0, 0), 1⟩) :=
  ⟨⟨by decide, (c2_amended 2 1 (5, 5, 5) ⟨(0, 0, 0), (0, 0, 0), 1⟩ (by decide)).1 (by decide)⟩,
   ⟨by decide, (c2_amended 2 0 (5, 5, 5) ⟨(0, 0, 0), (0, 0, 0), 1⟩ (by decide)).2 (by decide)⟩⟩

/-- C3 counterexample: with `transition_frames = 0` and `change_interval = 1`,
after the first per-frame advance the state has `current = target` while
`progress = 0`, violating the claimed invariant `progress == 1.0` iff
`current == target`. -/
theorem c3_counterexample :
    (colorUpdate 1 0 0 (5, 5, 5) ⟨(0, 0, 0), (0, 0, 0), 1⟩).current
        = (colorUpdate 1 0 0 (5, 5, 5) ⟨(0, 0, 0), (0, 0, 0), 1⟩).target ∧
    (colorUpdate 1 0 0 (5, 5, 5) ⟨(0, 0, 0), (0, 0, 0), 1⟩).progress ≠ 1 := by
  decide

/-- C3 (amended): the forward implication `progress >= 1 -> current = target`
is an invariant of the per-frame update (and holds in the initial state);
progress is monotonically non-decreasing on non-boundary frames and is reset
to 0 by the target phase exactly on boundary frames.  The claimed converse
(`current = target -> progress = 1`) is refuted by `c3_counterexample`. -/
theorem c3_amended (c tf i : ℕ) (draw : Color) (st : ColorState) :
    (ColorInv st → ColorInv (colorUpdate c tf i draw st)) ∧
    ((i + 1) % max 1 c ≠ 0 → st.progress ≤ (colorUpdate c tf i draw st).progress) ∧
    ((i + 1) % max 1 c = 0 → (targetPhase c (i + 1) draw st).progress = 0) ∧
    (∀ c0 : Color, ColorInv ⟨c0, c0, 1⟩) := by
  refine ⟨?_, ?_, ?_, ?_⟩
  · intro hinv
    exact advancePhase_inv tf _ (targetPhase_inv c (i + 1) draw st hinv)
  · intro hb
    unfold colorUpdate
    rw [targetPhase_skip c (i + 1) draw st hb]
    exact advancePhase_mono tf st
  · intro hb
    rw [targetPhase_boundary c (i + 1) draw st hb]
  · intro c0 _
    rfl

/-- Witness for C3 (amended): the invariant is preserved through one concrete
update, and the concrete non-boundary frame does not decrease progress. -/
theorem c3_witness :
    (ColorInv ⟨(0, 0, 0), (0, 0, 0), 1⟩ →
      ColorInv (colorUpdate 2 3 0 (5, 5, 5) ⟨(0, 0, 0), (0, 0, 0), 1⟩)) ∧
    ((0 + 1) % max 1 2 ≠ 0 ∧
      (⟨(0, 0, 0), (0, 0, 0), 1⟩ : ColorState).progress
        ≤ (colorUpdate 2 3 0 (5, 5, 5) ⟨(0, 0, 0), (0, 0, 0), 1⟩).progress) :=
  ⟨(c3_amended 2 3 0 (5, 5, 5) ⟨(0, 0, 0), (0, 0, 0), 1⟩).1,
   ⟨by decide, (c3_amended 2 3 0 (5, 5, 5) ⟨(0, 0, 0), (0, 0, 0), 1⟩).2.1 (by decide)⟩⟩

/-- C4 counterexample: with `transition_frames = 3`, two advances after drawing
target `(9,9,9)` from current `(0,0,0)` yield current `(7,7,7)` at progress
`2/3`, not the claimed linear interpolation `(6,6,6)`; and with
`transition_frames = 0` the progress is not snapped to 1 (it stays 0). -/
theorem c4_counterexample :
    ((advancePhase 3 (advancePhase 3 ⟨(0, 0, 0), (9, 9, 9), 0⟩)).current
        ≠ lerpC (advancePhase 3 (advancePhase 3 ⟨(0, 0, 0), (9, 9, 9), 0⟩)).progress
            (0, 0, 0) (9, 9, 9)) ∧
    (advancePhase 0 ⟨(0, 0, 0), (9, 9, 9), 0⟩).progress ≠ 1 := by
  constructor
  · have h1 : advancePhase 3 (advancePhase 3 ⟨(0, 0, 0), (9, 9, 9), 0⟩)
        = ⟨(7, 7, 7), (9, 9, 9), 2/3⟩ := by
      norm_num [advancePhase, lerpC]
    rw [h1]
    norm_num [lerpC]
  · norm_num [advancePhase]

/-- C4 (amended): each advance recomputes `current` by the recurrence
`current := (1 - min 1 p) * current + min 1 p * target` with `p` the stepped
progress (interpolating from the previous `current`, not from the interval's
start color, so for `transition_frames >= 3` it deviates from the linear
interpolation); after `transition_frames` advances the transition completes
with `current = target`; and with `transition_frames = 0` the current snaps to
the target immediately while the progress field is left unchanged (it is not
snapped to 1). -/
theorem c4_amended (tf : ℕ) (A B : Color) (st : ColorState) :
    (0 < tf → ((advancePhase tf)^[tf] ⟨A, B, 0⟩).current = B) ∧
    (st.progress < 1 → 0 < tf →
      advancePhase tf st
        = ⟨lerpC (min 1 (st.progress + 1 / (tf : ℚ))) st.current st.target,
            st.target, st.progress + 1 / (tf : ℚ)⟩) ∧
    ((advancePhase 0 st).current = st.target ∧ (advancePhase 0 st).progress = st.progress) := by
  refine ⟨fun htf => transitionCompletes tf htf A B, ?_, ?_⟩
  · intro h1 h2
    unfold advancePhase
    rw [if_pos ⟨h1, h2⟩]
  · unfold advancePhase
    norm_num

/-- Witness for C4 (amended): a full two-frame transition from `(0,0,0)` to
`(4,4,4)` ends exactly at the target. -/
theorem c4_witness :
    0 < 2 ∧ ((advancePhase 2)^[2] ⟨(0, 0, 0), (4, 4, 4), 0⟩).current = (4, 4, 4) :=
  ⟨by decide,
   (c4_amended 2 (0, 0, 0) (4, 4, 4) ⟨(0, 0, 0), (0, 0, 0), 0⟩).1 (by decide)⟩

end VJ

namespace VJ

/-- C5 (confirmed): the pre-blur mask value is `clip(1 - dist/max(1, tol), 0, 1)`
(that is the definition of `maskOfDist`, read off lines 208-210); it always
lies in `[0, 1]`, and a pixel whose color equals the keying color has distance
0 and mask value exactly 1. -/
theorem c5_mask (tol : ℚ) (p c : Color) (dist : ℚ) (_htol : 0 < tol) (hd : 0 ≤ dist)
    (hsq : dist ^ 2 = distSq p c) :
    (0 ≤ maskOfDist tol dist ∧ maskOfDist tol dist ≤ 1) ∧
    (p = c → maskOfDist tol dist = 1) := by
  constructor
  · unfold maskOfDist clip01
    exact ⟨le_min (by norm_num) (le_max_left 0 _), min_le_left 1 _⟩
  · intro hpc
    subst hpc
    have hz : distSq p p = 0 := by unfold distSq; ring
    rw [hz] at hsq
    have hdz : dist = 0 := sq_eq_zero_iff.mp hsq
    subst hdz
    unfold maskOfDist clip01
    norm_num

/-- Witness for C5 at tolerance 80 and a pixel equal to the key color. -/
theorem c5_witness :
    (0 < (80 : ℚ) ∧ 0 ≤ (0 : ℚ) ∧ (0 : ℚ) ^ 2 = distSq (1, 2, 3) (1, 2, 3)) ∧
    maskOfDist 80 0 = 1 :=
  ⟨⟨by norm_num, by norm_num, by norm_num [distSq]⟩,
   (c5_mask 80 (1, 2, 3) (1, 2, 3) 0 (by norm_num) (by norm_num)
      (by norm_num [distSq])).2 rfl⟩

theorem roundHalfEven_intCast (n : ℤ) : roundHalfEven (n : ℚ) = n := by
  unfold roundHalfEven
  rw [Int.floor_intCast]
  norm_num

theorem maskBlendPix_zero (a b : ℤ) (h0 : 0 ≤ a) (h1 : a ≤ 255) :
    maskBlendPix a b 0 = a := by
  unfold maskBlendPix clipU8
  have e : (a : ℚ) * (1 - 0) + (b : ℚ) * 0 = (a : ℚ) := by ring
  rw [e, max_eq_right (by exact_mod_cast h0), min_eq_right (by exact_mod_cast h1),
    Int.floor_intCast]

theorem maskBlendPix_one (a b : ℤ) (h0 : 0 ≤ b) (h1 : b ≤ 255) :
    maskBlendPix a b 1 = b := by
  unfold maskBlendPix clipU8
  have e : (a : ℚ) * (1 - 1) + (b : ℚ) * 1 = (b : ℚ) := by ring
  rw [e, max_eq_right (by exact_mod_cast h0), min_eq_right (by exact_mod_cast h1),
    Int.floor_intCast]

theorem addWeightedPix_wone (a b : ℤ) (be : ℚ) (hbe : be = 0) (h0 : 0 ≤ a) (h1 : a ≤ 255) :
    addWeightedPix a b 1 be 0 = a := by
  unfold addWeightedPix
  have e : (a : ℚ) * 1 + (b : ℚ) * be + 0 = (a : ℚ) := by rw [hbe]; ring
  rw [e, roundHalfEven_intCast, max_eq_right h0, min_eq_right h1]

theorem addWeightedPix_wzero (a b : ℤ) (be : ℚ) (hbe : be = 1) (h0 : 0 ≤ b) (h1 : b ≤ 255) :
    addWeightedPix a b 0 be 0 = b := by
  unfold addWeightedPix
  have e : (a : ℚ) * 0 + (b : ℚ) * be + 0 = (b : ℚ) := by rw [hbe]; ring
  rw [e, roundHalfEven_intCast, max_eq_right h0, min_eq_right h1]

theorem maskBlend_allzero : ∀ (a b : List ℤ) (m : List ℚ),
    (∀ x ∈ a, 0 ≤ x ∧ x ≤ 255) → a.length = b.length → m.length = a.length →
    (∀ t ∈ m, t = 0) → maskBlend a b m = a := by
  intro a
  induction a with
  | nil =>
    intro b m _ _ _ _
    cases b <;> cases m <;> rfl
  | cons x xs ih =>
    intro b m ha hab hma hm
    cases b with
    | nil => simp at hab
    | cons y ys =>
      cases m with
      | nil => simp at hma
      | cons t ts =>
        have hx := ha x (by simp)
        have ht : t = 0 := hm t (by simp)
        show maskBlendPix x y t :: zipWith3 maskBlendPix xs ys ts = x :: xs
        rw [ht, maskBlendPix_zero x y hx.1 hx.2]
        exact congrArg (List.cons x)
          (ih ys ts (fun z hz => ha z (List.mem_cons_of_mem _ hz))
            (by simpa using hab) (by simpa using hma)
            (fun z hz => hm z (List.mem_cons_of_mem _ hz)))

theorem maskBlend_allone : ∀ (a b : List ℤ) (m : List ℚ),
    (∀ x ∈ b, 0 ≤ x ∧ x ≤ 255) → a.length = b.length → m.length = a.length →
    (∀ t ∈ m, t = 1) → maskBlend a b m = b := by
  intro a
  induction a with
  | nil =>
    intro b m _ hab _ _
    cases b with
    | nil => cases m <;> rfl
    | cons y ys => simp at hab
  | cons x xs ih =>
    intro b m hb hab hma hm
    cases b with
    | nil => simp at hab
    | cons y ys =>
      cases m with
      | nil => simp at hma
      | cons t ts =>
        have hy := hb y (by simp)
        have ht : t = 1 := hm t (by simp)
        show maskBlendPix x y t :: zipWith3 maskBlendPix xs ys ts = y :: ys
        rw [ht, maskBlendPix_one x y hy.1 hy.2]
        exact congrArg (List.cons y)
          (ih ys ts (fun z hz => hb z (List.mem_cons_of_mem _ hz))
            (by simpa using hab) (by simpa using hma)
            (fun z hz => hm z (List.mem_cons_of_mem _ hz)))

theorem weightedBlend_one : ∀ (a b : List ℤ),
    (∀ x ∈ a, 0 ≤ x ∧ x ≤ 255) → a.length = b.length → weightedBlend a b 1 = a := by
  intro a
  induction a with
  | nil =>
    intro b _ _
    cases b <;> rfl
  | cons x xs ih =>
    intro b ha hab
    cases b with
    | nil => simp at hab
    | cons y ys =>
      have hx := ha x (by simp)
      show addWeightedPix x y 1 (1 - 1) 0 :: weightedBlend xs ys 1 = x :: xs
      rw [addWeightedPix_wone x y (1 - 1) (by norm_num) hx.1 hx.2]
      exact congrArg (List.cons x)
        (ih ys (fun z hz => ha z (List.mem_cons_of_mem _ hz)) (by simpa using hab))

theorem weightedBlend_zero : ∀ (a b : List ℤ),
    (∀ x ∈ b, 0 ≤ x ∧ x ≤ 255) → a.length = b.length → weightedBlend a b 0 = b := by
  intro a
  induction a with
  | nil =>
    intro b _ hab
    cases b with
    | nil => rfl
    | cons y ys => simp at hab
  | cons x xs ih =>
    intro b hb hab
    cases b with
    | nil => simp at hab
    | cons y ys =>
      have hy := hb y (by simp)
      show addWeightedPix x y 0 (1 - 0) 0 :: weightedBlend xs ys 0 = y :: ys
      rw [addWeightedPix_wzero x y (1 - 0) (by norm_num) hy.1 hy.2]
      exact congrArg (List.cons y)
        (ih ys (fun z hz => hb z (List.mem_cons_of_mem _ hz)) (by simpa using hab))

/-- C6 (confirmed): over 8-bit frames (modelled exactly, with no overflow,
before the final clamp/cast), the mask blend with mask identically 0 returns
the keyed frame unchanged and with mask identically 1 returns the replacement
frame unchanged; the weighted blend returns the first frame at weight 1 and
the second at weight 0. -/
theorem c6_blend (a b : List ℤ) (m : List ℚ)
    (ha : ∀ x ∈ a, 0 ≤ x ∧ x ≤ 255) (hb : ∀ x ∈ b, 0 ≤ x ∧ x ≤ 255)
    (hab : a.length = b.length) (hma : m.length = a.length) :
    ((∀ t ∈ m, t = 0) → maskBlend a b m = a) ∧
    ((∀ t ∈ m, t = 1) → maskBlend a b m = b) ∧
    weightedBlend a b 1 = a ∧ weightedBlend a b 0 = b :=
  ⟨fun hm => maskBlend_allzero a b m ha hab hma hm,
   fun hm => maskBlend_allone a b m hb hab hma hm,
   weightedBlend_one a b ha hab,
   weightedBlend_zero a b hb hab⟩

/-- Witness for C6 on concrete two-pixel frames. -/
theorem c6_witness :
    ((∀ x ∈ [(0 : ℤ), 255], 0 ≤ x ∧ x ≤ 255) ∧ (∀ x ∈ [(10 : ℤ), 20], 0 ≤ x ∧ x ≤ 255)) ∧
    ((∀ t ∈ [(0 : ℚ), 0], t = 0) → maskBlend [0, 255] [10, 20] [0, 0] = [0, 255]) ∧
    ((∀ t ∈ [(0 : ℚ), 0], t = 1) → maskBlend [0, 255] [10, 20] [0, 0] = [10, 20]) ∧
    weightedBlend [0, 255] [10, 20] 1 = [0, 255] ∧
    weightedBlend [0, 255] [10, 20] 0 = [10, 20] :=
  ⟨⟨by decide, by decide⟩,
   c6_blend [0, 255] [10, 20] [0, 0] (by decide) (by decide) rfl rfl⟩

/-- C9 counterexample: with source fps 8 and output fps 30 the computed stride
is `max(1, round(8/30)) = 1`, not `round(8/30) = 0`. -/
theorem c9_counterexample : bgStepOf 8 30 ≠ roundHalfEven (8 / 30) := by
  norm_num [bgStepOf, roundHalfEven]

/-- C9 (amended): the stride (a single configuration value fixed before the
frame loop) is `max(1, round(src_fps/out_fps))`: it is always at least 1, and
it equals `round(src_fps/out_fps)` exactly when that rounding is at least 1
(for round-to-zero cases the code clamps the stride to 1). -/
theorem c9_amended (src out : ℚ) (_hs : 0 < src) (_ho : 0 < out) :
    1 ≤ bgStepOf src out ∧
    (1 ≤ roundHalfEven (src / out) → bgStepOf src out = roundHalfEven (src / out)) := by
  unfold bgStepOf
  exact ⟨le_max_left 1 _, fun h => max_eq_right h⟩

/-- Witness for C9 at source fps 30 and output fps 8. -/
theorem c9_witness :
    (0 < (30 : ℚ) ∧ 0 < (8 : ℚ) ∧ 1 ≤ roundHalfEven ((30 : ℚ) / 8)) ∧
    bgStepOf 30 8 = roundHalfEven ((30 : ℚ) / 8) :=
  ⟨⟨by norm_num, by norm_num, by norm_num [roundHalfEven]⟩,
   (c9_amended 30 8 (by norm_num) (by norm_num)).2 (by norm_num [roundHalfEven])⟩

end VJ

namespace VJ

theorem chromaNoCap_run : ∀ (fuel : ℕ) (s : ChromaState),
    runChroma chromaNoCap fuel s = none := by
  intro fuel
  induction fuel with
  | zero => intro s; rfl
  | succ n ih =>
    intro s
    have hstep : chromaStep chromaNoCap s = Sum.inr ⟨s.frameCount + 1, s.bgIdx + 1⟩ := by
      unfold chromaStep capHit chromaNoCap
      simp
    unfold runChroma
    rw [hstep]
    exact ih _

/-- C1 counterexample: with no frame-count/duration cap configured and a
looping background whose reads always succeed, the `while True` loop of
`process_video` never terminates — no fuel bound suffices — refuting the
claim that the per-frame loop always performs finitely many iterations. -/
theorem c1_counterexample : chromaDiverges chromaNoCap ⟨0, 0⟩ :=
  fun fuel => chromaNoCap_run fuel ⟨0, 0⟩

theorem chromaStep_inr (cfg : ChromaCfg) (s s2 : ChromaState)
    (h : chromaStep cfg s = Sum.inr s2) : s2.frameCount = s.frameCount + 1 := by
  unfold chromaStep at h
  split at h
  · exact absurd h (by simp)
  · split at h
    · exact absurd h (by simp)
    · cases h
      rfl

theorem runChroma_cap (cfg : ChromaCfg) (m : ℕ) (hm : cfg.maxFrames = some m) :
    ∀ (fuel : ℕ) (s : ChromaState), m ≤ s.frameCount + fuel →
      (runChroma cfg (fuel + 1) s).isSome = true := by
  intro fuel
  induction fuel with
  | zero =>
    intro s hs
    have hcap : capHit cfg.maxFrames s.frameCount = true := by
      unfold capHit
      rw [hm]
      simpa using hs
    unfold runChroma chromaStep
    rw [hcap]
    rfl
  | succ n ih =>
    intro s hs
    show (runChroma cfg (n + 1 + 1) s).isSome = true
    unfold runChroma
    cases hstep : chromaStep cfg s with
    | inl r => rfl
    | inr s2 =>
      have hfc := chromaStep_inr cfg s s2 hstep
      exact ih s2 (by omega)

theorem runMain_exhaust {F : Type} (cfg : MainCfg F) :
    ∀ (fuel k : ℕ), cfg.readBase (k + fuel) = none →
      (runMain cfg (fuel + 1) k).isSome = true := by
  intro fuel
  induction fuel with
  | zero =>
    intro k hr
    have : (cfg.readBase k).isNone = true := by
      rw [Nat.add_zero] at hr
      rw [hr]
      rfl
    unfold runMain
    rw [this]
    rfl
  | succ n ih =>
    intro k hr
    show (runMain cfg (n + 1 + 1) k).isSome = true
    unfold runMain
    by_cases h1 : ((cfg.readBase k).isNone || (cfg.readOverlay k).isNone) = true
    · rw [if_pos h1]
      rfl
    · rw [if_neg h1]
      by_cases h2 : cfg.writeOk k = false
      · rw [if_pos h2]
        rfl
      · rw [if_neg h2]
        exact ih (k + 1) (by rw [show k + 1 + n = k + (n + 1) by omega]; exact hr)

/-- C1 (amended): the `process_video` loop terminates whenever a frame cap is
configured (within `max_frames + 1` iterations, by the cap break or an earlier
background-read failure), and the `process_videos.main` loop terminates
whenever a (non-looping, sequential) source is exhausted or the encoder pipe
write fails; but with no cap and a background whose looping reads always
succeed, `process_video` runs forever (see the counterexample). -/
theorem c1_amended :
    (∀ (cfg : ChromaCfg) (m b : ℕ), cfg.maxFrames = some m →
      (runChroma cfg (m + 1) ⟨0, b⟩).isSome = true) ∧
    (∀ (F : Type) (cfg : MainCfg F) (N : ℕ), cfg.readBase N = none →
      (runMain cfg (N + 1) 0).isSome = true) :=
  ⟨fun cfg m b hm => runChroma_cap cfg m hm m ⟨0, b⟩ (by omega),
   fun _F cfg N hN => runMain_exhaust cfg N 0 (by simpa using hN)⟩

/-- Witness for C1 (amended): a cap of 2 frames stops the loop within 3
iterations, and a base source exhausted at index 2 stops the main loop. -/
theorem c1_witness :
    (chromaCap2.maxFrames = some 2 ∧ (runChroma chromaCap2 3 ⟨0, 0⟩).isSome = true) ∧
    (mainTwo.readBase 2 = none ∧ (runMain mainTwo 3 0).isSome = true) :=
  ⟨⟨rfl, c1_amended.1 chromaCap2 2 0 rfl⟩,
   ⟨rfl, c1_amended.2 Unit mainTwo 2 rfl⟩⟩

end VJ

namespace VJ

theorem rngTailU_valid (g : Rng) (hg : Rng.valid g) : Rng.valid (rngTailU g) :=
  fun n => hg (n + 1)

theorem rngTailU_nonneg (g : Rng) (hg : Rng.nonneg g) : Rng.nonneg (rngTailU g) :=
  fun n => hg (n + 1)

theorem npRandint_ex (g : Rng) (low high : ℤ) (hg : Rng.valid g) (hlh : low < high) :
    ∃ v, npRandint g low high = Except.ok (v, rngTailU g) ∧ low ≤ v ∧ v < high := by
  have hu := hg 0
  have hd : (0 : ℚ) < (high : ℚ) - (low : ℚ) := by
    have : (low : ℚ) < (high : ℚ) := by exact_mod_cast hlh
    linarith
  refine ⟨low + ⌊g.u 0 * ((high : ℚ) - (low : ℚ))⌋, by unfold npRandint; rw [if_pos hlh], ?_, ?_⟩
  · have h0 : (0 : ℚ) ≤ g.u 0 * ((high : ℚ) - (low : ℚ)) := mul_nonneg hu.1 (le_of_lt hd)
    have h1 : 0 ≤ ⌊g.u 0 * ((high : ℚ) - (low : ℚ))⌋ := Int.floor_nonneg.mpr h0
    omega
  · have hlt : g.u 0 * ((high : ℚ) - (low : ℚ)) < (high : ℚ) - (low : ℚ) := by
      nlinarith [hu.2, hd]
    have h2 : ⌊g.u 0 * ((high : ℚ) - (low : ℚ))⌋ < high - low := by
      rw [Int.floor_lt]
      push_cast
      linarith
    omega

theorem stepChannel_ok (P : GlitchProbs) (h w : ℕ) (cur : Frame) (g : Rng)
    (hg : Rng.valid g) :
    ∃ f2 g2, stepChannel P h w cur g = Except.ok (f2, g2) ∧ Rng.valid g2 := by
  have v1 := rngTailU_valid g hg
  by_cases hgate : g.u 0 < P.pChannel
  · obtain ⟨a1, e1, _⟩ := npRandint_ex (rngTailU g) (-50) 50 v1 (by norm_num)
    have v2 := rngTailU_valid _ v1
    obtain ⟨a2, e2, _⟩ := npRandint_ex (rngTailU (rngTailU g)) (-50) 50 v2 (by norm_num)
    have v3 := rngTailU_valid _ v2
    obtain ⟨a3, e3, _⟩ := npRandint_ex (rngTailU (rngTailU (rngTailU g))) (-50) 50 v3
      (by norm_num)
    have v4 := rngTailU_valid _ v3
    refine ⟨channelShift h w cur a1 a2 a3, rngTailU (rngTailU (rngTailU (rngTailU g))), ?_, v4⟩
    simp only [stepChannel, if_pos hgate, e1, e2, e3]
  · refine ⟨cur, rngTailU g, ?_, v1⟩
    simp only [stepChannel, if_neg hgate]

theorem scrambleRows_ok (h w : ℕ) (hh : 0 < h) (hw : 0 < w) :
    ∀ (n : ℕ) (cur : Frame) (g : Rng), Rng.valid g →
      ∃ f2 g2, scrambleRows h w n cur g = Except.ok (f2, g2) ∧ Rng.valid g2 := by
  intro n
  induction n with
  | zero => intro cur g hg; exact ⟨cur, g, rfl, hg⟩
  | succ k ih =>
    intro cur g hg
    obtain ⟨r1, e1, _⟩ := npRandint_ex g 0 (h : ℤ) hg (by exact_mod_cast hh)
    have v1 := rngTailU_valid g hg
    have hlt : pydiv (-(w : ℤ)) 2 < pydiv (w : ℤ) 2 := by
      unfold pydiv
      omega
    obtain ⟨r2, e2, _⟩ := npRandint_ex (rngTailU g) (pydiv (-(w : ℤ)) 2) (pydiv (w : ℤ) 2) v1 hlt
    have v2 := rngTailU_valid _ v1
    obtain ⟨f2, g2, he, hv⟩ := ih (rollRow w cur r1.toNat r2) (rngTailU (rngTailU g)) v2
    refine ⟨f2, g2, ?_, hv⟩
    simp only [scrambleRows, e1, e2]
    exact he

theorem stepNoise_ok (P : GlitchProbs) (h w : ℕ) (cur : Frame) (g : Rng)
    (hh : 10 ≤ h) (hw : 1 ≤ w) (hg : Rng.valid g) :
    ∃ f2 g2, stepNoise P h w cur g = Except.ok (f2, g2) ∧ Rng.valid g2 := by
  have v1 := rngTailU_valid g hg
  by_cases hgate : g.u 0 < P.pNoise
  · have v2 : Rng.valid (rngTailArr (rngTailU g)) := v1
    have v3 := rngTailU_valid _ v2
    by_cases hgate2 : (rngTailArr (rngTailU g)).u 0 < P.pScramble
    · have hlt : (1 : ℤ) < pydiv (h : ℤ) 5 := by
        unfold pydiv
        omega
      obtain ⟨n1, e1, _⟩ := npRandint_ex (rngTailU (rngTailArr (rngTailU g))) 1
        (pydiv (h : ℤ) 5) v3 hlt
      have v4 := rngTailU_valid _ v3
      obtain ⟨f2, g2, he, hv⟩ := scrambleRows_ok h w (by omega) (by omega) n1.toNat
        (addWeightedFrame cur (7/10) ((rngTailU g).arr 0) (3/10))
        (rngTailU (rngTailU (rngTailArr (rngTailU g)))) v4
      refine ⟨f2, g2, ?_, hv⟩
      simp only [stepNoise, if_pos hgate, if_pos hgate2, e1]
      exact he
    · refine ⟨addWeightedFrame cur (7/10) ((rngTailU g).arr 0) (3/10),
        rngTailU (rngTailArr (rngTailU g)), ?_, v3⟩
      simp only [stepNoise, if_pos hgate, if_neg hgate2]
  · refine ⟨cur, rngTailU g, ?_, v1⟩
    simp only [stepNoise, if_neg hgate]

theorem stepDatamosh_ok (P : GlitchProbs) (h w : ℕ) (prev : Option Frame) (cur : Frame)
    (g : Rng) (hh : 4 ≤ h) (hw : 4 ≤ w) (hg : Rng.valid g) :
    ∃ f2 g2, stepDatamosh P h w prev cur g = Except.ok (f2, g2) ∧ Rng.valid g2 := by
  cases prev with
  | none => exact ⟨cur, g, rfl, hg⟩
  | some pf =>
    have v1 := rngTailU_valid g hg
    by_cases hgate : g.u 0 < P.pDatamosh
    · obtain ⟨x1, e1, _⟩ := npRandint_ex (rngTailU g) 0 (pydiv (w : ℤ) 4) v1
        (by unfold pydiv; omega)
      have v2 := rngTailU_valid _ v1
      obtain ⟨y1, e2, _⟩ := npRandint_ex (rngTailU (rngTailU g)) 0 (pydiv (h : ℤ) 4) v2
        (by unfold pydiv; omega)
      have v3 := rngTailU_valid _ v2
      obtain ⟨rw1, e3, _⟩ := npRandint_ex (rngTailU (rngTailU (rngTailU g)))
        (pydiv (w : ℤ) 2) (w : ℤ) v3 (by unfold pydiv; omega)
      have v4 := rngTailU_valid _ v3
      obtain ⟨rh1, e4, _⟩ := npRandint_ex (rngTailU (rngTailU (rngTailU (rngTailU g))))
        (pydiv (h : ℤ) 2) (h : ℤ) v4 (by unfold pydiv; omega)
      have v5 := rngTailU_valid _ v4
      refine ⟨regionCopy cur pf x1 y1 rw1 rh1, _, ?_, v5⟩
      simp only [stepDatamosh, if_pos hgate, e1, e2, e3, e4]
    · refine ⟨cur, rngTailU g, ?_, v1⟩
      simp only [stepDatamosh, if_neg hgate]

theorem stepBlock_ok (P : GlitchProbs) (h w : ℕ) (cur : Frame) (g : Rng)
    (hh : 2 ≤ h) (hw : 2 ≤ w) (hg : Rng.valid g) :
    ∃ f2 g2, stepBlock P h w cur g = Except.ok (f2, g2) ∧ Rng.valid g2 := by
  have v1 := rngTailU_valid g hg
  by_cases hgate : g.u 0 < P.pBlock
  · obtain ⟨bw1, e1, hbw1, hbw2⟩ := npRandint_ex (rngTailU g) (pydiv (w : ℤ) 10)
      (pydiv (w : ℤ) 2) v1 (by unfold pydiv; omega)
    have v2 := rngTailU_valid _ v1
    obtain ⟨bh1, e2, hbh1, hbh2⟩ := npRandint_ex (rngTailU (rngTailU g)) (pydiv (h : ℤ) 10)
      (pydiv (h : ℤ) 2) v2 (by unfold pydiv; omega)
    have v3 := rngTailU_valid _ v2
    have hxr : (0 : ℤ) < (w : ℤ) - bw1 := by
      unfold pydiv at hbw2
      omega
    obtain ⟨x1, e3, _⟩ := npRandint_ex (rngTailU (rngTailU (rngTailU g))) 0 ((w : ℤ) - bw1)
      v3 hxr
    have v4 := rngTailU_valid _ v3
    have hyr : (0 : ℤ) < (h : ℤ) - bh1 := by
      unfold pydiv at hbh2
      omega
    obtain ⟨y1, e4, _⟩ := npRandint_ex (rngTailU (rngTailU (rngTailU (rngTailU g)))) 0
      ((h : ℤ) - bh1) v4 hyr
    have v5 := rngTailU_valid _ v4
    obtain ⟨c0, e5, _⟩ := npRandint_ex _ 0 256 v5 (by norm_num)
    have v6 := rngTailU_valid _ v5
    obtain ⟨c1, e6, _⟩ := npRandint_ex _ 0 256 v6 (by norm_num)
    have v7 := rngTailU_valid _ v6
    obtain ⟨c2, e7, _⟩ := npRandint_ex _ 0 256 v7 (by norm_num)
    have v8 := rngTailU_valid _ v7
    refine ⟨blockFill cur x1 y1 bw1 bh1 c0 c1 c2, _, ?_, v8⟩
    simp only [stepBlock, if_pos hgate, e1, e2, e3, e4, e5, e6, e7]
  · refine ⟨cur, rngTailU g, ?_, v1⟩
    simp only [stepBlock, if_neg hgate]

theorem stepFeedback_ok (P : GlitchProbs) (warp : Frame → ℚ → ℚ → Frame) (h w : ℕ)
    (fb : Option Frame) (cur : Frame) (g : Rng) (hg : Rng.valid g) :
    ∃ f2 g2, stepFeedback P warp h w fb cur g = Except.ok (f2, g2) ∧ Rng.valid g2 := by
  cases fb with
  | none => exact ⟨cur, g, rfl, hg⟩
  | some f =>
    have v1 := rngTailU_valid g hg
    by_cases hgate : g.u 0 < P.pFeedback
    · simp only [stepFeedback, if_pos hgate, npUniform]
      exact ⟨_, _, rfl, rngTailU_valid _ (rngTailU_valid _ v1)⟩
    · refine ⟨cur, rngTailU g, ?_, v1⟩
      simp only [stepFeedback, if_neg hgate]

/-- C10 (amended): for frames with `h >= 10` and `w >= 4` the glitch chain
never raises, for every draw stream and every persistent state: every
`np.random.randint` range is then non-empty, and region/slice arithmetic is
clamping, not raising.  (For smaller frames the chain does raise; see the
counterexample.) -/
theorem c10_amended (P : GlitchProbs) (warp : Frame → ℚ → ℚ → Frame) (h w : ℕ)
    (frame : Frame) (ps : Persist) (g : Rng)
    (hh : 10 ≤ h) (hw : 4 ≤ w) (hg : Rng.valid g) :
    glitchOk (applyUltraGlitch P warp h w frame ps g) = true := by
  obtain ⟨f1, g1, e1, v1⟩ := stepChannel_ok P h w frame g hg
  obtain ⟨f2, g2, e2, v2⟩ := stepNoise_ok P h w f1 g1 hh (by omega) v1
  obtain ⟨f3, g3, e3, v3⟩ := stepDatamosh_ok P h w ps.prev_frame f2 g2 (by omega) hw v2
  obtain ⟨f4, g4, e4, v4⟩ := stepBlock_ok P h w f3 g3 (by omega) (by omega) v3
  obtain ⟨f5, g5, e5, v5⟩ := stepFeedback_ok P warp h w ps.feedback_frame f4 g4 v4
  simp only [applyUltraGlitch, e1, e2, e3, e4, e5, glitchOk]

/-- C10 counterexample: at the positive frame size 4x4 (any height below 10
suffices), an all-zero draw stream (every gate fires) reaches
`np.random.randint(1, h // 5)` with an empty range and the chain raises. -/
theorem c10_counterexample :
    applyUltraGlitch ultraProbs warp0 4 4 frame0 ⟨none, none⟩ rngZero
      = Except.error GlitchErr.emptyRange := by
  simp [applyUltraGlitch, stepChannel, stepNoise, stepDatamosh, stepBlock, stepFeedback,
    scrambleRows, npRandint, npUniform, rngTailU, rngTailArr, rngZero, frame0, ultraProbs,
    pydiv, channelShift, addWeightedFrame]

/-- Witness for C10 (amended) at a 10x4 frame with the all-zero draw stream. -/
theorem c10_witness :
    (10 ≤ 10 ∧ 4 ≤ 4 ∧ Rng.valid rngZero) ∧
    glitchOk (applyUltraGlitch ultraProbs warp0 10 4 frame0 ⟨none, none⟩ rngZero) = true :=
  ⟨⟨le_refl 10, le_refl 4, fun _ => ⟨by norm_num [rngZero], by norm_num [rngZero]⟩⟩,
   c10_amended ultraProbs warp0 10 4 frame0 ⟨none, none⟩ rngZero (le_refl 10) (le_refl 4)
     (fun _ => ⟨by norm_num [rngZero], by norm_num [rngZero]⟩)⟩

end VJ

namespace VJ

theorem applyUltraGlitch_shape (P : GlitchProbs) (warp : Frame → ℚ → ℚ → Frame) (h w : ℕ)
    (frame : Frame) (ps : Persist) (g : Rng) :
    (∃ e, applyUltraGlitch P warp h w frame ps g = Except.error e) ∨
    (∃ out g2, applyUltraGlitch P warp h w frame ps g
        = Except.ok (out, ⟨some frame, some out⟩, g2)) := by
  unfold applyUltraGlitch
  cases stepChannel P h w frame g with
  | error e => exact Or.inl ⟨e, rfl⟩
  | ok r1 =>
    obtain ⟨c1, g1⟩ := r1
    dsimp only
    cases stepNoise P h w c1 g1 with
    | error e => exact Or.inl ⟨e, rfl⟩
    | ok r2 =>
      obtain ⟨c2, g2⟩ := r2
      dsimp only
      cases stepDatamosh P h w ps.prev_frame c2 g2 with
      | error e => exact Or.inl ⟨e, rfl⟩
      | ok r3 =>
        obtain ⟨c3, g3⟩ := r3
        dsimp only
        cases stepBlock P h w c3 g3 with
        | error e => exact Or.inl ⟨e, rfl⟩
        | ok r4 =>
          obtain ⟨c4, g4⟩ := r4
          dsimp only
          cases stepFeedback P warp h w ps.feedback_frame c4 g4 with
          | error e => exact Or.inl ⟨e, rfl⟩
          | ok r5 =>
            obtain ⟨c5, g5⟩ := r5
            exact Or.inr ⟨c5, g5, rfl⟩

/-- C7 (confirmed): with an empty persistent state the datamosh and feedback
gate conditions cannot hold and the two transforms are identities consuming no
draw; and on every completed call, `prev_frame` ends up holding a copy of the
pre-glitch input frame and `feedback_frame` a copy of the post-glitch output
frame, regardless of which gates fired. -/
theorem c7_state (P : GlitchProbs) (warp : Frame → ℚ → ℚ → Frame) (h w : ℕ)
    (cur frame : Frame) (ps : Persist) (g : Rng) (p u : ℚ) :
    (¬ datamoshGate none p u) ∧
    (¬ feedbackGate none p u) ∧
    stepDatamosh P h w none cur g = Except.ok (cur, g) ∧
    stepFeedback P warp h w none cur g = Except.ok (cur, g) ∧
    (∀ out ps2 g2, applyUltraGlitch P warp h w frame ps g = Except.ok (out, ps2, g2) →
      ps2.prev_frame = some frame ∧ ps2.feedback_frame = some out) := by
  refine ⟨?_, ?_, rfl, rfl, ?_⟩
  · intro hgate
    simpa [datamoshGate] using hgate.1
  · intro hgate
    simpa [feedbackGate] using hgate.1
  · intro out ps2 g2 happ
    rcases applyUltraGlitch_shape P warp h w frame ps g with ⟨e, he⟩ | ⟨o, g3, ho⟩
    · rw [he] at happ
      cases happ
    · rw [ho] at happ
      simp only [Except.ok.injEq, Prod.mk.injEq] at happ
      obtain ⟨h1, h2, _⟩ := happ
      subst h1
      rw [← h2]
      exact ⟨rfl, rfl⟩

/-- Witness for C7: a concrete complete run (all gates closed by draws equal
to 1) whose final state holds the input frame and the output frame. -/
theorem c7_witness :
    applyUltraGlitch ultraProbs warp0 4 4 frame0 ⟨none, none⟩ rngOne
        = Except.ok (frame0, ⟨some frame0, some frame0⟩,
            rngTailU (rngTailU (rngTailU rngOne))) ∧
    (Persist.prev_frame ⟨some frame0, some frame0⟩ = some frame0 ∧
     Persist.feedback_frame ⟨some frame0, some frame0⟩ = some frame0) := by
  have he : applyUltraGlitch ultraProbs warp0 4 4 frame0 ⟨none, none⟩ rngOne
      = Except.ok (frame0, ⟨some frame0, some frame0⟩,
          rngTailU (rngTailU (rngTailU rngOne))) := by
    norm_num [applyUltraGlitch, stepChannel, stepNoise, stepDatamosh, stepBlock, stepFeedback,
      npRandint, npUniform, rngTailU, rngTailArr, rngOne, ultraProbs]
  exact ⟨he,
    (c7_state ultraProbs warp0 4 4 frame0 frame0 ⟨none, none⟩ rngOne 0 0).2.2.2.2
      frame0 ⟨some frame0, some frame0⟩ (rngTailU (rngTailU (rngTailU rngOne))) he⟩

theorem stepChannel_zeroP (h w : ℕ) (cur : Frame) (g : Rng) (hg : 0 ≤ g.u 0) :
    stepChannel zeroProbs h w cur g = Except.ok (cur, rngTailU g) := by
  simp only [stepChannel]
  rw [if_neg (not_lt.mpr hg : ¬ g.u 0 < zeroProbs.pChannel)]

theorem stepNoise_zeroP (h w : ℕ) (cur : Frame) (g : Rng) (hg : 0 ≤ g.u 0) :
    stepNoise zeroProbs h w cur g = Except.ok (cur, rngTailU g) := by
  simp only [stepNoise]
  rw [if_neg (not_lt.mpr hg : ¬ g.u 0 < zeroProbs.pNoise)]

theorem stepDatamosh_zeroP_some (h w : ℕ) (pf cur : Frame) (g : Rng) (hg : 0 ≤ g.u 0) :
    stepDatamosh zeroProbs h w (some pf) cur g = Except.ok (cur, rngTailU g) := by
  simp only [stepDatamosh]
  rw [if_neg (not_lt.mpr hg : ¬ g.u 0 < zeroProbs.pDatamosh)]

theorem stepBlock_zeroP (h w : ℕ) (cur : Frame) (g : Rng) (hg : 0 ≤ g.u 0) :
    stepBlock zeroProbs h w cur g = Except.ok (cur, rngTailU g) := by
  simp only [stepBlock]
  rw [if_neg (not_lt.mpr hg : ¬ g.u 0 < zeroProbs.pBlock)]

theorem stepFeedback_zeroP_some (warp : Frame → ℚ → ℚ → Frame) (h w : ℕ) (f cur : Frame)
    (g : Rng) (hg : 0 ≤ g.u 0) :
    stepFeedback zeroProbs warp h w (some f) cur g = Except.ok (cur, rngTailU g) := by
  simp only [stepFeedback]
  rw [if_neg (not_lt.mpr hg : ¬ g.u 0 < zeroProbs.pFeedback)]

/-- C8 (confirmed): with every gate probability set to 0 and a draw stream of
values in `[0,1)` (so no Bernoulli gate can fire), the chain raises nothing,
returns the input frame unchanged, and still overwrites both state fields. -/
theorem c8_noop (warp : Frame → ℚ → ℚ → Frame) (h w : ℕ) (frame : Frame) (ps : Persist)
    (g : Rng) (hg : Rng.nonneg g) :
    ∃ g2, applyUltraGlitch zeroProbs warp h w frame ps g
      = Except.ok (frame, ⟨some frame, some frame⟩, g2) := by
  have t1 := stepChannel_zeroP h w frame g (hg 0)
  have n1 := rngTailU_nonneg g hg
  have t2 := stepNoise_zeroP h w frame (rngTailU g) (n1 0)
  have n2 := rngTailU_nonneg _ n1
  rcases ps with ⟨prev, fb⟩
  cases prev with
  | none =>
    have t3 : stepDatamosh zeroProbs h w none frame (rngTailU (rngTailU g))
        = Except.ok (frame, rngTailU (rngTailU g)) := rfl
    have t4 := stepBlock_zeroP h w frame (rngTailU (rngTailU g)) (n2 0)
    have n3 := rngTailU_nonneg _ n2
    cases fb with
    | none =>
      have t5 : stepFeedback zeroProbs warp h w none frame (rngTailU (rngTailU (rngTailU g)))
          = Except.ok (frame, rngTailU (rngTailU (rngTailU g))) := rfl
      exact ⟨rngTailU (rngTailU (rngTailU g)),
        by simp only [applyUltraGlitch, t1, t2, t3, t4, t5]⟩
    | some f =>
      have t5 := stepFeedback_zeroP_some warp h w f frame
        (rngTailU (rngTailU (rngTailU g))) (n3 0)
      exact ⟨rngTailU (rngTailU (rngTailU (rngTailU g))),
        by simp only [applyUltraGlitch, t1, t2, t3, t4, t5]⟩
  | some pf =>
    have t3 := stepDatamosh_zeroP_some h w pf frame (rngTailU (rngTailU g)) (n2 0)
    have n3 := rngTailU_nonneg _ n2
    have t4 := stepBlock_zeroP h w frame (rngTailU (rngTailU (rngTailU g))) (n3 0)
    have n4 := rngTailU_nonneg _ n3
    cases fb with
    | none =>
      have t5 : stepFeedback zeroProbs warp h w none frame
          (rngTailU (rngTailU (rngTailU (rngTailU g))))
          = Except.ok (frame, rngTailU (rngTailU (rngTailU (rngTailU g)))) := rfl
      exact ⟨rngTailU (rngTailU (rngTailU (rngTailU g))),
        by simp only [applyUltraGlitch, t1, t2, t3, t4, t5]⟩
    | some f =>
      have t5 := stepFeedback_zeroP_some warp h w f frame
        (rngTailU (rngTailU (rngTailU (rngTailU g)))) (n4 0)
      exact ⟨rngTailU (rngTailU (rngTailU (rngTailU (rngTailU g)))),
        by simp only [applyUltraGlitch, t1, t2, t3, t4, t5]⟩

/-- Witness for C8 on a concrete frame, state and draw stream. -/
theorem c8_witness :
    Rng.nonneg rngZero ∧
    ∃ g2, applyUltraGlitch zeroProbs warp0 4 4 frame0 ⟨none, none⟩ rngZero
      = Except.ok (frame0, ⟨some frame0, some frame0⟩, g2) :=
  ⟨fun _ => by norm_num [rngZero],
   c8_noop warp0 4 4 frame0 ⟨none, none⟩ rngZero (fun _ => by norm_num [rngZero])⟩

end VJ
